import Mathlib

/-!
# Verification of the agentic-stock-alerter core (`src/base.py`)

A shallow embedding of the stock-alert agent: the watchlist store, the
threshold advisor, the alert evaluator, the function router
(`function_caller`), the wire-format parsing (`parse_param` and the
`FUNCTION_CALL:` line handling), and the agent loop of `run_stock_agent`.

Modelling conventions:
* Python `float` values are modelled as rationals (`ℚ`).  The numeric
  *rendering* of a float inside a message string is abstracted by `qRepr`
  (Python prints `240.0` where we print `240`); no claim under
  verification depends on the exact digits of a rendered number.
* Python string operations (`strip`, `upper`, `split`, `in`, `startswith`)
  are embedded as executable functions on `List Char`, matching Python's
  semantics on the character level.
* External collaborators (yfinance price/history lookups, the wall clock,
  the statistics library's standard deviation and `sqrt(252)`) are
  parameters collected in an `Oracles` structure; everything downstream of
  their answers is translated from the source.
* A Python exception that the source lets escape from a routed function is
  modelled as the `ExecOutcome.exc` constructor; a function that *returns*
  an error string stays on the `ExecOutcome.ok` path, exactly as in the
  source, where only `try/except` around `function_caller` distinguishes
  the two.
-/

/-! ## Character-level string utilities (Python semantics) -/

/-- `isPrefixList p l` is `true` iff `p` is a prefix of `l`
(Boolean counterpart of `str.startswith` on exploded strings). -/
def isPrefixList : List Char → List Char → Bool
  | [], _ => true
  | _ :: _, [] => false
  | a :: as, b :: bs => a = b && isPrefixList as bs

/-- `hasSubstrL sub l` is `true` iff `sub` occurs contiguously in `l`
(Python's `sub in s`). -/
def hasSubstrL (sub : List Char) : List Char → Bool
  | [] => isPrefixList sub []
  | c :: t => isPrefixList sub (c :: t) || hasSubstrL sub t

/-- Python's substring test `sub in s`. -/
def sContains (s sub : String) : Bool := hasSubstrL sub.data s.data

/-- Python's `s.startswith(pfx)`. -/
def startsWithStr (s pfx : String) : Bool := isPrefixList pfx.data s.data

/-- Python's `str.strip()` on exploded strings: drop whitespace from both
ends. -/
def pyStripChars (l : List Char) : List Char :=
  ((l.dropWhile Char.isWhitespace).reverse.dropWhile Char.isWhitespace).reverse

/-- Python's `s.strip()`. -/
def pyStrip (s : String) : String := ⟨pyStripChars s.data⟩

/-- Python's `s.upper()` (ASCII case mapping suffices for our claims). -/
def pyUpper (s : String) : String := ⟨s.data.map Char.toUpper⟩

/-- The symbol normalisation used throughout the source:
`symbol.upper().strip()`. -/
def pyNorm (s : String) : String := pyStrip (pyUpper s)

/-- Python's `s.strip("\"'")`: drop surrounding single/double quotes. -/
def pyStripQuotes (s : String) : String :=
  ⟨((s.data.dropWhile fun c => c = '"' ∨ c = '\'').reverse.dropWhile
      fun c => c = '"' ∨ c = '\'').reverse⟩

/-- Split on a single character, keeping empty fragments
(Python's `s.split(ch)` semantics). -/
def splitCharL (ch : Char) : List Char → List (List Char)
  | [] => [[]]
  | c :: t =>
    match splitCharL ch t with
    | [] => [[c]]
    | h :: r => if c = ch then [] :: h :: r else (c :: h) :: r

/-- Python's `response_text.split('\n')`. -/
def pySplitLines (s : String) : List String :=
  (splitCharL '\n' s.data).map fun l => ⟨l⟩

/-- `re.split(r'[|,]', s)`: split at every pipe or comma, keeping empty
fragments. -/
def splitDelimsL : List Char → List (List Char)
  | [] => [[]]
  | c :: t =>
    match splitDelimsL t with
    | [] => [[c]]
    | h :: r => if c = '|' ∨ c = ',' then [] :: h :: r else (c :: h) :: r

/-- String-level `re.split(r'[|,]', s)`. -/
def splitDelims (s : String) : List String := (splitDelimsL s.data).map fun l => ⟨l⟩

/-- The text after the first `:` of `s`
(Python's `s.split(":", 1)[1]`; `""` when there is no colon, a case the
source only reaches on lines that do contain a colon). -/
def afterFirstColon (s : String) : String :=
  ⟨((splitCharL ':' s.data).tail).foldr
      (fun frag acc => match acc with | [] => frag | _ => frag ++ ':' :: acc) []⟩

/-- Python's `" ".join(l)`. -/
def joinSp : List String → String
  | [] => ""
  | [x] => x
  | x :: y :: t => x ++ " " ++ joinSp (y :: t)

/-- Python's `"\n".join(l)`. -/
def joinNl : List String → String
  | [] => ""
  | [x] => x
  | x :: y :: t => x ++ "\n" ++ joinNl (y :: t)

/-- Python's `l[-n:]`: the last `n` elements (the whole list when it is
shorter). -/
def lastN (n : ℕ) (l : List String) : List String := l.drop (l.length - n)

/-! ## Numeral rendering

The source interpolates numbers into f-strings.  We render our rational
model values with a digit-based printer whose output provably contains no
whitespace and no newline; Python renders whole-valued floats with a
trailing `.0`, a difference no claim depends on. -/

/-- Structural helper for `natDigitsRev`: the fuel bounds the number of
digits, so the recursion reduces definitionally. -/
def natDigitsRevAux : ℕ → ℕ → List Char
  | 0, _ => []
  | fuel + 1, n =>
    if n = 0 then [] else Nat.digitChar (n % 10) :: natDigitsRevAux fuel (n / 10)

/-- Decimal digits of `n`, least significant first (empty for `0`). -/
def natDigitsRev (n : ℕ) : List Char := natDigitsRevAux n n

/-- Decimal rendering of a natural number. -/
def natRepr (n : ℕ) : String :=
  if n = 0 then "0" else ⟨(natDigitsRev n).reverse⟩

/-- Decimal rendering of an integer. -/
def intRepr (n : ℤ) : String :=
  if n < 0 then "-" ++ natRepr n.natAbs else natRepr n.natAbs

/-- Rendering of a rational model value (abstraction of Python's float
formatting; integral values print without a fractional part). -/
def qRepr (q : ℚ) : String :=
  if q.den = 1 then intRepr q.num else intRepr q.num ++ "/" ++ natRepr q.den

/-! ## Typed scalars and `parse_param` (src/base.py lines 216-227) -/

/-- A parsed positional argument: Python `float`, `int` or `str`
(the three shapes `parse_param` can produce). -/
inductive Param
  | pfloat (q : ℚ)
  | pint (n : ℤ)
  | pstr (s : String)
  deriving DecidableEq

/-- Digits-only string to number (helper for the `int()`/`float()`
models); `none` when a non-digit occurs. -/
def digitsToNat : List Char → Option ℕ
  | [] => some 0
  | c :: t =>
    if c.isDigit then
      match digitsToNat t with
      | some m => some ((c.toNat - 48) * 10 ^ t.length + m)
      | none => none
    else none

/-- Model of Python `int(s)` on plain decimal numerals: optional sign,
then one or more digits (exotic forms such as underscores or unicode
digits are out of scope; `none` models the `ValueError`). -/
def pyIntOfString (s : String) : Option ℤ :=
  match s.data with
  | [] => none
  | '-' :: t => if t = [] then none else (digitsToNat t).map fun n => -(n : ℤ)
  | '+' :: t => if t = [] then none else (digitsToNat t).map fun n => (n : ℤ)
  | l => (digitsToNat l).map fun n => (n : ℤ)

/-- Unsigned decimal with optional single point, as a rational:
`240` , `240.` , `.5` , `240.75` (helper for the `float()` model). -/
def decimalToQ (l : List Char) : Option ℚ :=
  match splitCharL '.' l with
  | [ip] => if ip = [] then none else (digitsToNat ip).map fun n => (n : ℚ)
  | [ip, fp] =>
    if ip = [] ∧ fp = [] then none
    else
      match digitsToNat ip, digitsToNat fp with
      | some i, some f => some ((i : ℚ) + (f : ℚ) / (10 : ℚ) ^ fp.length)
      | _, _ => none
  | _ => none

/-- Model of Python `float(s)` on plain decimal numerals (no exponent
forms, `inf` or `nan`; `none` models the `ValueError`). -/
def pyFloatOfString (s : String) : Option ℚ :=
  match (pyStrip s).data with
  | '-' :: t => (decimalToQ t).map Neg.neg
  | '+' :: t => decimalToQ t
  | l => decimalToQ l

/-- `parse_param` (src/base.py lines 216-227): strip, then float if the
text has a decimal point, else int, else a string with surrounding quotes
stripped. -/
def parse_param (param : String) : Param :=
  let p := pyStrip param
  if hasSubstrL ['.'] p.data then
    match pyFloatOfString p with
    | some q => .pfloat q
    | none => .pstr (pyStripQuotes p)
  else
    match pyIntOfString p with
    | some n => .pint n
    | none => .pstr (pyStripQuotes p)

/-- Python `float(x)` applied to a routed argument; `none` models the
raised `ValueError`/`TypeError`. -/
def pyFloat : Param → Option ℚ
  | .pint n => some (n : ℚ)
  | .pfloat q => some q
  | .pstr s => pyFloatOfString s

/-- A routed argument used in arithmetic or an order comparison; `none`
models the `TypeError` Python raises for a string there. -/
def paramAsQ : Param → Option ℚ
  | .pint n => some (n : ℚ)
  | .pfloat q => some q
  | .pstr _ => none

/-- Python truthiness of a routed argument (`if alert_status:`). -/
def paramTruthy : Param → Bool
  | .pint n => n ≠ 0
  | .pfloat q => q ≠ 0
  | .pstr s => s ≠ ""

/-- f-string interpolation `f"{param}"` of a routed argument. -/
def renderParam : Param → String
  | .pint n => intRepr n
  | .pfloat q => qRepr q
  | .pstr s => s

/-- Python `repr` of a routed argument as it appears inside the printed
argument list `f"({params})"`. -/
def reprParam : Param → String
  | .pint n => intRepr n
  | .pfloat q => qRepr q
  | .pstr s => "'" ++ s ++ "'"

/-- Python list display `f"{params}"` for the parsed argument list. -/
def paramsRepr (ps : List Param) : String :=
  "[" ++ String.intercalate ", " (ps.map reprParam) ++ "]"

/-! ## External collaborators (price oracle, clock, statistics) -/

/-- The external collaborators of the core, passed as parameters:
`now` models `datetime.now()` rendered for the current run, `priceOf`
models the yfinance current-price lookup after `get_stock_price`'s own
rounding (with `none` for every contained failure), `histOf symbol period`
models `ticker.history(period=...)`'s close-price column (oldest first),
`std` models `pandas.Series.std` and `sqrt252` models `np.sqrt(252)`
(both irrational in general, hence oracle-supplied). -/
structure Oracles where
  now : String
  priceOf : String → Option ℚ
  histOf : String → String → List ℚ
  std : List ℚ → ℚ
  sqrt252 : ℚ

/-- `get_stock_price` (src/base.py lines 22-33): normalise the symbol and
ask the market-data collaborator; every failure is contained to `None`. -/
def get_stock_price (priceOf : String → Option ℚ) (symbol : String) : Option ℚ :=
  priceOf (pyNorm symbol)

/-! ## Watchlist store (src/base.py lines 138-166) -/

/-- One watchlist entry: thresholds plus the insertion timestamp. -/
structure Entry where
  low : ℚ
  high : ℚ
  added_at : String
  deriving DecidableEq

/-- The global `watchlist` dict, modelled as an insertion-ordered
association list with Python-dict update semantics. -/
abbrev Watchlist := List (String × Entry)

/-- Python dict assignment `watchlist[k] = e`: overwrite in place when the
key exists (keeping its position), else append. -/
def wlInsert (wl : Watchlist) (k : String) (e : Entry) : Watchlist :=
  if wl.any fun p => p.1 = k then
    wl.map fun p => if p.1 = k then (k, e) else p
  else wl ++ [(k, e)]

/-- Python dict lookup `watchlist.get(k)`. -/
def wlLookup (wl : Watchlist) (k : String) : Option Entry :=
  (wl.find? fun p => p.1 = k).map Prod.snd

/-- `add_to_watchlist` (src/base.py lines 138-147): normalise the symbol,
coerce both thresholds with `float()` (a failing coercion raises before
the store is touched, modelled by `.error`), store the entry, and confirm
with a message that interpolates the *raw* arguments. -/
def add_to_watchlist (now : String) (symbol : String) (low_threshold high_threshold : Param)
    (wl : Watchlist) : Except String (String × Watchlist) :=
  let S := pyNorm symbol
  match pyFloat low_threshold with
  | none => .error ("could not convert string to float: '" ++ renderParam low_threshold ++ "'")
  | some l =>
    match pyFloat high_threshold with
    | none => .error ("could not convert string to float: '" ++ renderParam high_threshold ++ "'")
    | some h =>
      .ok ("Added " ++ S ++ " to watchlist: Low=" ++ renderParam low_threshold
             ++ ", High=" ++ renderParam high_threshold,
           wlInsert wl S ⟨l, h, now⟩)

/-- `remove_from_watchlist` (src/base.py lines 149-156): normalise; delete
and confirm when present, else return a not-found message. -/
def remove_from_watchlist (symbol : String) (wl : Watchlist) : String × Watchlist :=
  let S := pyNorm symbol
  if wl.any fun p => p.1 = S then
    ("Removed " ++ S ++ " from watchlist", wl.eraseP fun p => p.1 = S)
  else (S ++ " not found in watchlist", wl)

/-- The rendered line of one watchlist entry (the body of the loop in
`get_watchlist`, without its trailing newline). -/
def entryLine (p : String × Entry) : String :=
  "- " ++ p.1 ++ ": Low=" ++ qRepr p.2.low ++ ", High=" ++ qRepr p.2.high

/-- The accumulation loop of `get_watchlist`: one `entryLine ++ "\n"` per
entry, appended in store order. -/
def wlBody : Watchlist → String
  | [] => ""
  | p :: t => entryLine p ++ "\n" ++ wlBody t

/-- `get_watchlist` (src/base.py lines 158-166): sentinel message when
empty, else a header plus one line per entry, with the final newline
stripped. -/
def get_watchlist (wl : Watchlist) : String :=
  if wl.isEmpty then "Watchlist is empty"
  else pyStrip ("Current Watchlist:\n" ++ wlBody wl)

/-! ## Alert evaluator (src/base.py lines 168-209) -/

/-- `check_price_limit` (src/base.py lines 168-172): `True` iff the price
is strictly outside the threshold range. -/
def check_price_limit (price low high : ℚ) : Bool :=
  if price < low ∨ price > high then true else false

/-- The mojibake alarm prefix the source file contains verbatim. -/
def alarmMark : String := "üö®"

/-- `generate_alert` (src/base.py lines 174-181): a BELOW/ABOVE message
when the status flag is set and the price is strictly outside the range,
else `None`. -/
def generate_alert (alert_status : Bool) (symbol : String) (price low high : ℚ) :
    Option String :=
  if alert_status then
    if price < low then
      some (alarmMark ++ " ALERT: " ++ symbol ++ " price $" ++ qRepr price
              ++ " is BELOW threshold range (" ++ qRepr low ++ ", " ++ qRepr high ++ ")")
    else if price > high then
      some (alarmMark ++ " ALERT: " ++ symbol ++ " price $" ++ qRepr price
              ++ " is ABOVE threshold range (" ++ qRepr low ++ ", " ++ qRepr high ++ ")")
    else none
  else none

/-- The mojibake out-of-range marker of the report line. -/
def warnMark : String := "‚ö†Ô∏è"

/-- The mojibake in-range marker of the report line. -/
def okMark : String := "‚úÖ"

/-- One pass of the `monitor_all_stocks` loop body: extend the
(alerts, report) accumulator with one entry's line. -/
def monitorStep (priceOf : String → Option ℚ) (acc : List String × String)
    (p : String × Entry) : List String × String :=
  match get_stock_price priceOf p.1 with
  | none => (acc.1, acc.2 ++ "- " ++ p.1 ++ ": Could not fetch price\n")
  | some price =>
    if check_price_limit price p.2.low p.2.high then
      (acc.1 ++ [(generate_alert true p.1 price p.2.low p.2.high).getD ""],
       acc.2 ++ "- " ++ p.1 ++ ": $" ++ qRepr price ++ " " ++ warnMark ++ " OUT OF RANGE\n")
    else
      (acc.1, acc.2 ++ "- " ++ p.1 ++ ": $" ++ qRepr price ++ " " ++ okMark ++ " In range\n")

/-- `monitor_all_stocks` (src/base.py lines 183-209): fixed sentinel when
the watchlist is empty; else a timestamped header, one line per symbol
(price failures contained to a "could not fetch" line), and a trailing
alerts block or all-within-range line.  The `.getD ""` default inside
`monitorStep` is unreachable: out-of-range implies `generate_alert`
produces a message. -/
def monitor_all_stocks (oc : Oracles) (wl : Watchlist) : String :=
  if wl.isEmpty then "No stocks in watchlist to monitor"
  else
    let acc := wl.foldl (monitorStep oc.priceOf)
      ([], "Monitoring Report - " ++ oc.now ++ "\n")
    if acc.1.isEmpty then acc.2 ++ "\nAll stocks within range"
    else acc.2 ++ "\nALERTS:\n" ++ joinNl acc.1

/-- `schedule_monitoring` (src/base.py lines 211-213). -/
def schedule_monitoring (interval_minutes : Param) : String :=
  "Monitoring scheduled for every " ++ renderParam interval_minutes ++ " minutes"

/-! ## Threshold advisor (src/base.py lines 35-136) -/

/-- Python `round(x, 2)` on the rational model (Mathlib's `round` rounds
halves up where Python's float round is banker's; no claim depends on a
half-way case). -/
def round2 (q : ℚ) : ℚ := ((round (q * 100) : ℤ) : ℚ) / 100

/-- `hist_data['Close'].pct_change().dropna()`: simple day-over-day
returns of consecutive closes (the leading `NaN` dropped; an infinite
return from a zero price does not occur in our rational model). -/
def pct_change (l : List ℚ) : List ℚ :=
  (l.zip l.tail).map fun p => (p.2 - p.1) / p.1

/-- Arithmetic mean (`rolling(window=20).mean().iloc[-1]` is the mean of
the trailing 20 closes). -/
def listMean (l : List ℚ) : ℚ := l.sum / (l.length : ℚ)

/-- Python's `l[-n:]` on rationals. -/
def lastNQ (n : ℕ) (l : List ℚ) : List ℚ := l.drop (l.length - n)

/-- The dictionary `suggest_thresholds` returns on success. -/
structure Suggestion where
  symbol : String
  current_price : ℚ
  method : String
  low : ℚ
  high : ℚ
  volatility : Option ℚ := none
  ma_20 : Option ℚ := none
  reasoning : String
  deriving DecidableEq

/-- `suggest_thresholds` returns either its suggestion dictionary or an
error/insufficient-data string. -/
inductive SuggestResult
  | dict (d : Suggestion)
  | str (s : String)
  deriving DecidableEq

/-- `suggest_thresholds` (src/base.py lines 35-124): normalise the
symbol, fetch history for `f"{days}d"`, and branch on the method.  Python
formats `:.2f` where we render `qRepr (round2 _)`; a `TypeError` from a
non-numeric `percentage` is caught by the enclosing `try` and surfaced as
the error string of line 124 (its exception text abbreviated here). -/
def suggest_thresholds (oc : Oracles) (symbol : String) (method : Param)
    (percentage : Param) (days : Param) : SuggestResult :=
  let S := pyNorm symbol
  let hist_data := oc.histOf S (renderParam days ++ "d")
  if hist_data.isEmpty then .str ("Could not fetch historical data for " ++ S)
  else
    let current_price := hist_data.getLastD 0
    if method = .pstr "percentage" then
      match paramAsQ percentage with
      | none => .str ("Error calculating thresholds for " ++ S
          ++ ": unsupported operand type for /")
      | some pct =>
        .dict { symbol := S
                current_price := round2 current_price
                method := renderParam percentage ++ "% above/below current price"
                low := round2 (current_price * (1 - pct / 100))
                high := round2 (current_price * (1 + pct / 100))
                reasoning := "Based on " ++ renderParam percentage
                  ++ "% movement from current price of $" ++ qRepr (round2 current_price) }
    else if method = .pstr "volatility" then
      let returns := pct_change hist_data
      if returns.length < 5 then
        .str ("Not enough data for volatility analysis of " ++ S)
      else
        let volatility := oc.std returns
        let daily_volatility := volatility * oc.sqrt252
        let price_change := current_price * volatility
        .dict { symbol := S
                current_price := round2 current_price
                method := "Historical volatility (1 std dev)"
                low := round2 (current_price - price_change)
                high := round2 (current_price + price_change)
                volatility := some (round2 (daily_volatility * 100))
                reasoning := "Based on " ++ renderParam days
                  ++ "-day historical volatility of "
                  ++ qRepr (round2 (daily_volatility * 100)) ++ "%" }
    else if method = .pstr "moving_average" then
      if hist_data.length < 20 then
        .str ("Not enough data for moving average analysis of " ++ S)
      else
        let ma_20 := listMean (lastNQ 20 hist_data)
        let deviation := |current_price - ma_20|
        .dict { symbol := S
                current_price := round2 current_price
                method := "Moving Average deviation"
                low := round2 (current_price - deviation * (3 / 2))
                high := round2 (current_price + deviation * (3 / 2))
                ma_20 := some (round2 ma_20)
                reasoning := "Based on deviation from 20-day MA of $"
                  ++ qRepr (round2 ma_20) }
    else
      .str ("Unknown method: " ++ renderParam method
        ++ ". Use 'percentage', 'volatility', or 'moving_average'")

/-- `add_to_watchlist_with_suggestions` (src/base.py lines 126-136):
compose advisor and store, forwarding an advisor error string unchanged;
the `.error` branch is unreachable because the suggested thresholds are
floats. -/
def add_to_watchlist_with_suggestions (oc : Oracles) (symbol : String) (method : Param)
    (percentage : Param) (wl : Watchlist) : Except String (String × Watchlist) :=
  match suggest_thresholds oc symbol method percentage (.pint 30) with
  | .str s => .ok (s, wl)
  | .dict d =>
    match add_to_watchlist oc.now symbol (.pfloat d.low) (.pfloat d.high) wl with
    | .ok (msg, wl2) => .ok (msg ++ "\nSuggestion details: " ++ d.reasoning, wl2)
    | .error e => .error e

/-! ## Function router (src/base.py lines 229-256) -/

/-- A value a routed function can return: a string, a bool
(`check_price_limit`), `None` (`get_stock_price` failure or a suppressed
alert), a price float, or the advisor's dictionary. -/
inductive PyVal
  | vstr (s : String)
  | vbool (b : Bool)
  | vnone
  | vfloat (q : ℚ)
  | vdict (d : Suggestion)
  deriving DecidableEq

/-- f-string rendering of a routed result (`f"... -> {iteration_result}"`).
Python prints the advisor dictionary in dict-literal syntax; we render its
reasoning field as a stand-in, which no claim inspects. -/
def renderPyVal : PyVal → String
  | .vstr s => s
  | .vbool b => if b then "True" else "False"
  | .vnone => "None"
  | .vfloat q => qRepr q
  | .vdict d => "dict: " ++ d.reasoning

/-- The outcome of one routed invocation: a returned value, or an
exception that escapes to the agent loop's `except` handler. -/
inductive ExecOutcome
  | ok (v : PyVal)
  | exc (msg : String)
  deriving DecidableEq

/-- Lift the advisor's return value into a routed result. -/
def suggestVal : SuggestResult → PyVal
  | .dict d => .vdict d
  | .str s => .vstr s

/-- `function_caller` (src/base.py lines 229-256) inlined with each
callee's calling convention: zero/one/spread dispatch over the fixed
registry, an unknown name answered with a soft "not found" string.  A
Python `TypeError` from a wrong argument count or a wrongly-typed
argument in arithmetic/compare position, the `AttributeError` from
`.upper()` on a non-string, and `float()`'s `ValueError` are the `exc`
cases (their message texts abbreviated); `get_stock_price` and
`suggest_thresholds` contain their own exceptions internally, as in the
source. -/
def function_caller (oc : Oracles) (func_name : String) (params : List Param)
    (wl : Watchlist) : ExecOutcome × Watchlist :=
  if func_name = "get_stock_price" then
    match params with
    | [.pstr s] =>
      (match get_stock_price oc.priceOf s with
       | some q => (.ok (.vfloat q), wl)
       | none => (.ok .vnone, wl))
    | [_] => (.ok .vnone, wl)
    | _ => (.exc "get_stock_price() takes 1 positional argument", wl)
  else if func_name = "suggest_thresholds" then
    match params with
    | [.pstr s] => (.ok (suggestVal (suggest_thresholds oc s (.pstr "percentage") (.pint 5) (.pint 30))), wl)
    | [.pstr s, m] => (.ok (suggestVal (suggest_thresholds oc s m (.pint 5) (.pint 30))), wl)
    | [.pstr s, m, p] => (.ok (suggestVal (suggest_thresholds oc s m p (.pint 30))), wl)
    | [.pstr s, m, p, d] => (.ok (suggestVal (suggest_thresholds oc s m p d)), wl)
    | (p : Param) :: _ =>
      (.ok (.vstr ("Error calculating thresholds for " ++ renderParam p
        ++ ": no attribute upper")), wl)
    | _ => (.exc "suggest_thresholds() missing 1 required positional argument", wl)
  else if func_name = "add_to_watchlist" then
    match params with
    | [.pstr s, l, h] =>
      (match add_to_watchlist oc.now s l h wl with
       | .ok (msg, wl2) => (.ok (.vstr msg), wl2)
       | .error e => (.exc e, wl))
    | [_, _, _] => (.exc "no attribute upper", wl)
    | _ => (.exc "add_to_watchlist() missing required positional arguments", wl)
  else if func_name = "add_to_watchlist_with_suggestions" then
    match params with
    | [.pstr s] =>
      (match add_to_watchlist_with_suggestions oc s (.pstr "percentage") (.pint 5) wl with
       | .ok (msg, wl2) => (.ok (.vstr msg), wl2)
       | .error e => (.exc e, wl))
    | [.pstr s, m] =>
      (match add_to_watchlist_with_suggestions oc s m (.pint 5) wl with
       | .ok (msg, wl2) => (.ok (.vstr msg), wl2)
       | .error e => (.exc e, wl))
    | [.pstr s, m, p] =>
      (match add_to_watchlist_with_suggestions oc s m p wl with
       | .ok (msg, wl2) => (.ok (.vstr msg), wl2)
       | .error e => (.exc e, wl))
    | (p : Param) :: _ =>
      (.ok (.vstr ("Error calculating thresholds for " ++ renderParam p
        ++ ": no attribute upper")), wl)
    | _ => (.exc "add_to_watchlist_with_suggestions() missing 1 required positional argument",
        wl)
  else if func_name = "remove_from_watchlist" then
    match params with
    | [.pstr s] =>
      (let r := remove_from_watchlist s wl
       (.ok (.vstr r.1), r.2))
    | [_] => (.exc "no attribute upper", wl)
    | _ => (.exc "remove_from_watchlist() takes 1 positional argument", wl)
  else if func_name = "get_watchlist" then
    match params with
    | [] => (.ok (.vstr (get_watchlist wl)), wl)
    | _ => (.exc "get_watchlist() takes 0 positional arguments", wl)
  else if func_name = "check_price_limit" then
    match params with
    | [p, l, h] =>
      (match paramAsQ p, paramAsQ l, paramAsQ h with
       | some pq, some lq, some hq => (.ok (.vbool (check_price_limit pq lq hq)), wl)
       | _, _, _ => (.exc "'<' not supported between instances", wl))
    | _ => (.exc "check_price_limit() missing required positional arguments", wl)
  else if func_name = "generate_alert" then
    match params with
    | [st, sym, p, l, h] =>
      if paramTruthy st then
        match paramAsQ p, paramAsQ l, paramAsQ h with
        | some pq, some lq, some hq =>
          (match generate_alert true (renderParam sym) pq lq hq with
           | some m => (.ok (.vstr m), wl)
           | none => (.ok .vnone, wl))
        | _, _, _ => (.exc "'<' not supported between instances", wl)
      else (.ok .vnone, wl)
    | _ => (.exc "generate_alert() missing required positional arguments", wl)
  else if func_name = "monitor_all_stocks" then
    match params with
    | [] => (.ok (.vstr (monitor_all_stocks oc wl)), wl)
    | _ => (.exc "monitor_all_stocks() takes 0 positional arguments", wl)
  else if func_name = "schedule_monitoring" then
    match params with
    | [m] => (.ok (.vstr (schedule_monitoring m)), wl)
    | _ => (.exc "schedule_monitoring() takes 1 positional argument", wl)
  else (.ok (.vstr ("Function " ++ func_name ++ " not found")), wl)

/-! ## Wire-format parsing inside the agent loop (src/base.py lines 314-344) -/

/-- Lines 334-344: split the payload into function name and arguments.
The split happens only when the payload contains a pipe; then the payload
is split at every pipe *and* comma, the name and each argument are
stripped, empty argument fragments are dropped, and each remaining
fragment is coerced by `parse_param`.  A payload without a pipe is a bare
function name with no arguments. -/
def parseFunctionInfo (function_info : String) : String × List Param :=
  if sContains function_info "|" then
    let parts := splitDelims (pyStrip function_info)
    let func_name := pyStrip (parts.headD "")
    let param_parts := (parts.drop 1).filter fun p => ¬(pyStrip p).isEmpty
    (func_name, param_parts.map parse_param)
  else (pyStrip function_info, [])

/-- Classification of a model response (lines 314-371): a found
`FUNCTION_CALL:` marker line (already stripped), a response containing the
marker with no line starting with it, a `FINAL_ANSWER:` response with its
extracted answer, or an unrecognized shape. -/
inductive RClass
  | fnCallLine (line : String)
  | fnCallNoLine
  | finalAns (ans : String)
  | other
  deriving DecidableEq

/-- Classify a (stripped) model response exactly as lines 314-371 do:
the `FUNCTION_CALL:` branch is taken whenever the marker occurs anywhere
in the text, and scans the lines for one that starts with the marker. -/
def classify (response_text : String) : RClass :=
  if sContains response_text "FUNCTION_CALL:" then
    match (pySplitLines response_text).find?
        (fun l => startsWithStr (pyStrip l) "FUNCTION_CALL:") with
    | some l => .fnCallLine (pyStrip l)
    | none => .fnCallNoLine
  else if startsWithStr response_text "FINAL_ANSWER:" then
    .finalAns (pyStrip (afterFirstColon response_text))
  else .other

/-- The full parse pipeline of one raw model response, when it leads to a
dispatch: strip the response, find the marker line, take the text after
its first colon, strip it, and split it into name and coerced arguments.
`none` is the `continue` path of line 328 (marker present, no marker
line). -/
def parseResponseFunctionCall (response_raw : String) : Option (String × List Param) :=
  match classify (pyStrip response_raw) with
  | .fnCallLine line => some (parseFunctionInfo (pyStrip (afterFirstColon line)))
  | _ => none

/-! ## Agent loop (src/base.py lines 259-378) -/

/-- The system prompt of `run_stock_agent` (lines 263-284), verbatim. -/
def systemPrompt : String :=
  "You are StockAlertAgent - a stock watchlist monitoring agent. Respond with EXACTLY ONE of these formats:\n"
  ++ "1. FUNCTION_CALL: python_function_name|input\n"
  ++ "2. FINAL_ANSWER: message\n\n"
  ++ "Available functions:\n"
  ++ "1. get_stock_price(symbol) - Get current stock price for a symbol\n"
  ++ "2. suggest_thresholds(symbol|method|percentage) - Suggest threshold values using different methods\n"
  ++ "   - method: \"percentage\" (default), \"volatility\", or \"moving_average\" \n"
  ++ "   - percentage: number for percentage method (default 5%)\n"
  ++ "3. add_to_watchlist(symbol|low_threshold|high_threshold) - Add stock to monitoring watchlist\n"
  ++ "4. add_to_watchlist_with_suggestions(symbol|method|percentage) - Add stock using suggested thresholds\n"
  ++ "5. remove_from_watchlist(symbol) - Remove stock from watchlist\n"
  ++ "6. get_watchlist - Get current watchlist with all stocks and thresholds (NO parameters)\n"
  ++ "7. check_price_limit(price|low|high) - Check if price is outside threshold range\n"
  ++ "8. generate_alert(alert_status|symbol|price|low|high) - Generate alert message\n"
  ++ "9. monitor_all_stocks - Check all stocks in watchlist for alerts (NO parameters)\n"
  ++ "10. schedule_monitoring(interval_minutes) - Set up continuous monitoring\n\n"
  ++ "For functions with NO parameters, just use: FUNCTION_CALL: function_name\n"
  ++ "For functions with parameters, use: FUNCTION_CALL: function_name|param1|param2\n\n"
  ++ "Think through the task step by step and decide what functions to call. DO NOT include multiple responses. Give ONE response at a time."

/-- The loop state of `run_stock_agent` before each `while` check:
the iteration counter, the `iteration_response` history, `last_response`,
and the watchlist store. -/
structure AgentState where
  iteration : ℕ
  itResponses : List String
  lastResponse : Option PyVal
  wl : Watchlist
  deriving DecidableEq

/-- The prompt built at the top of a loop pass (lines 296-302): the query
alone before any result exists, else query plus the last three turn
summaries and the trailing cue. -/
def promptOf (query : String) (st : AgentState) : String :=
  match st.lastResponse with
  | none => systemPrompt ++ "\n\nQuery: " ++ query
  | some _ => systemPrompt ++ "\n\nQuery: " ++ query ++ "\n\nContext: "
      ++ joinSp (lastN 3 st.itResponses) ++ "\n\nWhat should I do next?"

/-- Outcome of one pass of the loop body: continue with a new state
(the `continue` of line 328 and the fall-through of line 373), or break
with a final answer (line 368). -/
inductive StepOut
  | cont (st : AgentState)
  | finalAnswer (ans : String) (st : AgentState)
  deriving DecidableEq

/-- One pass of the `while` body (lines 294-373) on the raw model
response.  Note that the `continue` path (marker present but no marker
line) neither updates the state nor increments the iteration counter. -/
def step (oc : Oracles) (raw : String) (st : AgentState) : StepOut :=
  let response_text := pyStrip raw
  match classify response_text with
  | .fnCallNoLine => .cont st
  | .fnCallLine line =>
    let fp := parseFunctionInfo (pyStrip (afterFirstColon line))
    match function_caller oc fp.1 fp.2 st.wl with
    | (.ok v, wl2) =>
      .cont { iteration := st.iteration + 1
              itResponses := st.itResponses
                ++ ["Iteration " ++ natRepr (st.iteration + 1) ++ ": Called " ++ fp.1
                      ++ "(" ++ paramsRepr fp.2 ++ ") -> " ++ renderPyVal v]
              lastResponse := some v
              wl := wl2 }
    | (.exc e, wl2) =>
      .cont { iteration := st.iteration + 1
              itResponses := st.itResponses
                ++ ["Iteration " ++ natRepr (st.iteration + 1) ++ ": Error in " ++ fp.1
                      ++ ": " ++ e]
              lastResponse := st.lastResponse
              wl := wl2 }
  | .finalAns a => .finalAnswer a st
  | .other => .cont { st with iteration := st.iteration + 1 }

/-- How `run_stock_agent` terminated. -/
inductive LoopExit
  | finalAnswer (ans : String)
  | maxIterReached
  deriving DecidableEq

/-- The `while iteration < max_iterations` loop, with the scripted model's
responses indexed by the number of model invocations made so far and an
explicit fuel bounding the number of passes (the source loop has no such
bound on passes — only on *counted* iterations — so `none` witnesses that
`fuel` passes were not enough to terminate). -/
def runAux (oc : Oracles) (model : ℕ → String) (max_iterations : ℕ) :
    ℕ → ℕ → AgentState → Option (LoopExit × AgentState)
  | 0, _, _ => none
  | fuel + 1, k, st =>
    if st.iteration < max_iterations then
      match step oc (model k) st with
      | .cont st2 => runAux oc model max_iterations fuel (k + 1) st2
      | .finalAnswer a st2 => some (.finalAnswer a, st2)
    else some (.maxIterReached, st)

/-- `run_stock_agent` (src/base.py lines 259-378) from a given initial
watchlist: run the loop from iteration 0 with an empty history. -/
def run_stock_agent (oc : Oracles) (model : ℕ → String) (max_iterations : ℕ)
    (wl0 : Watchlist) (fuel : ℕ) : Option (LoopExit × AgentState) :=
  runAux oc model max_iterations fuel 0 ⟨0, [], none, wl0⟩

/-! ## Auxiliary constructions used by the theorems -/

/-- A concrete oracle bundle for evaluating witnesses: a fixed clock, no
available prices, a three-point price history, degenerate statistics. -/
def sampleOracles : Oracles :=
  ⟨"T0", fun _ => none, fun _ _ => [10, 11, 12], fun _ => 0, 0⟩

/-- The delimiter-annotated join of argument fragments: the name fragment
followed by each (delimiter, fragment) pair, e.g. the payload
`name|a,b` is `joinFrags "name".data [('|', "a".data), (',', "b".data)]`. -/
def joinFrags (nf : List Char) (ps : List (Char × List Char)) : List Char :=
  nf ++ ps.foldr (fun p acc => p.1 :: (p.2 ++ acc)) []

/-- A model response that contains the `FUNCTION_CALL:` marker on no line
start: the shape that drives `run_stock_agent` into the `continue` of
line 328. -/
def badResponse : String := "The FUNCTION_CALL: I should make is get_watchlist"

/-! ## Shared lemmas: substring search -/

theorem isPrefixList_self_append (s b : List Char) : isPrefixList s (s ++ b) = true := by
  induction s with
  | nil => rfl
  | cons c t ih => simp [isPrefixList, ih]

theorem hasSubstrL_nil (l : List Char) : hasSubstrL [] l = true := by
  cases l <;> simp [hasSubstrL, isPrefixList]

theorem hasSubstrL_self_append (sub b : List Char) : hasSubstrL sub (sub ++ b) = true := by
  cases sub with
  | nil => simpa using hasSubstrL_nil b
  | cons d u =>
    simp only [List.cons_append, hasSubstrL]
    have : isPrefixList (d :: u) (d :: (u ++ b)) = true := isPrefixList_self_append (d :: u) b
    simp [this]

theorem hasSubstrL_of_mid (sub a b : List Char) : hasSubstrL sub (a ++ sub ++ b) = true := by
  induction a with
  | nil => simpa [List.append_assoc] using hasSubstrL_self_append sub b
  | cons c t ih =>
    simp only [List.cons_append, hasSubstrL, List.append_assoc] at ih ⊢
    simp [ih]

theorem sContains_of_decomp (s sub : String) (a b : List Char)
    (h : s.data = a ++ sub.data ++ b) : sContains s sub = true := by
  unfold sContains
  rw [h]
  exact hasSubstrL_of_mid _ _ _

theorem hasSubstrL_singleton (c : Char) (l : List Char) :
    hasSubstrL [c] l = true ↔ c ∈ l := by
  induction l with
  | nil => simp [hasSubstrL, isPrefixList]
  | cons b t ih => by_cases hb : c = b <;> simp [hasSubstrL, isPrefixList, hb, ih]

/-! ## Shared lemmas: splitting on delimiters -/

theorem splitDelimsL_ne_nil (l : List Char) : splitDelimsL l ≠ [] := by
  cases l with
  | nil => simp [splitDelimsL]
  | cons c t =>
    simp only [splitDelimsL]
    cases h : splitDelimsL t with
    | nil => simp
    | cons h r => by_cases hc : c = '|' ∨ c = ',' <;> simp [hc]

theorem splitDelimsL_delim_cons (d : Char) (rest : List Char)
    (hd : d = '|' ∨ d = ',') : splitDelimsL (d :: rest) = [] :: splitDelimsL rest := by
  simp only [splitDelimsL]
  cases h : splitDelimsL rest with
  | nil => exact absurd h (splitDelimsL_ne_nil rest)
  | cons a r => simp [hd]

theorem splitDelimsL_append_clean (f rest : List Char)
    (hf : ∀ c ∈ f, ¬(c = '|' ∨ c = ',')) :
    ∀ h t, splitDelimsL rest = h :: t → splitDelimsL (f ++ rest) = (f ++ h) :: t := by
  induction f with
  | nil => intro h t hrest; simpa using hrest
  | cons c f' ih =>
    intro h t hrest
    have hc : ¬(c = '|' ∨ c = ',') := hf c (by simp)
    have h2 := ih (fun x hx => hf x (by simp [hx])) h t hrest
    simp only [List.cons_append, splitDelimsL, List.append_eq]
    rw [h2]
    simp [hc]

theorem splitDelimsL_clean (f : List Char) (hf : ∀ c ∈ f, ¬(c = '|' ∨ c = ',')) :
    splitDelimsL f = [f] := by
  have := splitDelimsL_append_clean f [] hf [] [] rfl
  simpa using this

theorem splitDelimsL_joinFrags (nf : List Char) (ps : List (Char × List Char))
    (hnf : ∀ c ∈ nf, ¬(c = '|' ∨ c = ','))
    (hps : ∀ p ∈ ps, (p.1 = '|' ∨ p.1 = ',') ∧ ∀ c ∈ p.2, ¬(c = '|' ∨ c = ',')) :
    splitDelimsL (joinFrags nf ps) = nf :: ps.map Prod.snd := by
  induction ps generalizing nf with
  | nil => simpa [joinFrags] using splitDelimsL_clean nf hnf
  | cons p rest ih =>
    have hjoin : joinFrags nf (p :: rest) = nf ++ (p.1 :: joinFrags p.2 rest) := by
      simp [joinFrags]
    rw [hjoin]
    have hrec : splitDelimsL (joinFrags p.2 rest) = p.2 :: rest.map Prod.snd :=
      ih p.2 (hps p (by simp)).2 (fun q hq => hps q (by simp [hq]))
    have hd : splitDelimsL (p.1 :: joinFrags p.2 rest) = [] :: p.2 :: rest.map Prod.snd := by
      rw [splitDelimsL_delim_cons p.1 _ (hps p (by simp)).1, hrec]
    have := splitDelimsL_append_clean nf (p.1 :: joinFrags p.2 rest) hnf _ _ hd
    simpa using this

/-! ## Shared lemmas: splitting on newlines -/

theorem splitCharL_ne_nil (ch : Char) (l : List Char) : splitCharL ch l ≠ [] := by
  cases l with
  | nil => simp [splitCharL]
  | cons c t =>
    simp only [splitCharL]
    cases h : splitCharL ch t with
    | nil => simp
    | cons h r => by_cases hc : c = ch <;> simp [hc]

theorem splitCharL_sep_cons (ch : Char) (rest : List Char) :
    splitCharL ch (ch :: rest) = [] :: splitCharL ch rest := by
  simp only [splitCharL]
  cases h : splitCharL ch rest with
  | nil => exact absurd h (splitCharL_ne_nil ch rest)
  | cons a r => simp

theorem splitCharL_append_clean (ch : Char) (f rest : List Char)
    (hf : ∀ c ∈ f, c ≠ ch) :
    ∀ h t, splitCharL ch rest = h :: t → splitCharL ch (f ++ rest) = (f ++ h) :: t := by
  induction f with
  | nil => intro h t hrest; simpa using hrest
  | cons c f' ih =>
    intro h t hrest
    have hc : c ≠ ch := hf c (by simp)
    have h2 := ih (fun x hx => hf x (by simp [hx])) h t hrest
    simp only [List.cons_append, splitCharL, List.append_eq]
    rw [h2]
    simp [hc]

theorem splitCharL_clean (ch : Char) (f : List Char) (hf : ∀ c ∈ f, c ≠ ch) :
    splitCharL ch f = [f] := by
  have := splitCharL_append_clean ch f [] hf [] [] rfl
  simpa using this

/-- `"\n"`-intercalation of char-level lines (the shape of the
`get_watchlist` body after the final newline is stripped). -/
def interNl : List (List Char) → List Char
  | [] => []
  | [x] => x
  | x :: y :: t => x ++ '\n' :: interNl (y :: t)

theorem splitCharL_interNl (ld : List (List Char)) (hne : ld ≠ [])
    (hld : ∀ l ∈ ld, ∀ c ∈ l, c ≠ '\n') :
    splitCharL '\n' (interNl ld) = ld := by
  induction ld with
  | nil => exact absurd rfl hne
  | cons x rest ih =>
    cases rest with
    | nil => simpa [interNl] using splitCharL_clean '\n' x (hld x (by simp))
    | cons y t =>
      have hrec : splitCharL '\n' (interNl (y :: t)) = y :: t :=
        ih (by simp) (fun l hl => hld l (List.mem_cons_of_mem x hl))
      have hd : splitCharL '\n' ('\n' :: interNl (y :: t)) = [] :: y :: t := by
        rw [splitCharL_sep_cons, hrec]
      have := splitCharL_append_clean '\n' x ('\n' :: interNl (y :: t))
        (hld x (by simp)) _ _ hd
      simpa [interNl] using this

/-! ## Shared lemmas: stripping, digits, rendering -/

theorem pyStripChars_wrap (h : Char) (t : List Char) (c : Char)
    (hh : h.isWhitespace = false) (hc : c.isWhitespace = false) :
    pyStripChars (h :: (t ++ [c] ++ ['\n'])) = h :: (t ++ [c]) := by
  have hnl : ('\n' : Char).isWhitespace = true := by decide
  simp [pyStripChars, List.dropWhile_cons, hh, hc, hnl, List.reverse_append]

theorem digitChar_clean (d : ℕ) (hd : d < 10) :
    (Nat.digitChar d).isWhitespace = false ∧ Nat.digitChar d ≠ '\n' := by
  interval_cases d <;> exact ⟨rfl, by decide⟩

theorem natDigitsRevAux_clean (fuel : ℕ) :
    ∀ n, ∀ c ∈ natDigitsRevAux fuel n, c.isWhitespace = false ∧ c ≠ '\n' := by
  induction fuel with
  | zero => intro n c hc; simp [natDigitsRevAux] at hc
  | succ fuel ih =>
    intro n c hc
    by_cases h : n = 0
    · simp [natDigitsRevAux, h] at hc
    · simp only [natDigitsRevAux, h, if_false, List.mem_cons] at hc
      rcases hc with hc | hc
      · subst hc; exact digitChar_clean _ (Nat.mod_lt _ (by norm_num))
      · exact ih (n / 10) c hc

theorem natDigitsRev_clean (n : ℕ) :
    ∀ c ∈ natDigitsRev n, c.isWhitespace = false ∧ c ≠ '\n' :=
  natDigitsRevAux_clean n n

theorem natRepr_clean (n : ℕ) :
    (∀ c ∈ (natRepr n).data, c.isWhitespace = false ∧ c ≠ '\n')
    ∧ (natRepr n).data ≠ [] := by
  unfold natRepr
  by_cases h : n = 0
  · simp only [h, if_true]
    exact ⟨by decide, by decide⟩
  · simp only [h, if_false]
    constructor
    · intro c hc
      exact natDigitsRev_clean n c (by simpa using hc)
    · have : natDigitsRev n ≠ [] := by
        unfold natDigitsRev
        rcases hn : n with _ | m
        · exact absurd hn h
        · simp [natDigitsRevAux, ← hn, h]
      simpa using this

theorem intRepr_clean (n : ℤ) :
    (∀ c ∈ (intRepr n).data, c.isWhitespace = false ∧ c ≠ '\n')
    ∧ (intRepr n).data ≠ [] := by
  unfold intRepr
  by_cases h : n < 0
  · simp only [h, if_true, String.data_append]
    constructor
    · intro c hc
      rcases List.mem_append.mp hc with hc | hc
      · simp only [show ("-" : String).data = ['-'] from rfl, List.mem_singleton] at hc
        subst hc; exact ⟨rfl, by decide⟩
      · exact (natRepr_clean _).1 c hc
    · simp [show ("-" : String).data = ['-'] from rfl]
  · simp only [h, if_false]
    exact natRepr_clean _

theorem qRepr_clean (q : ℚ) :
    (∀ c ∈ (qRepr q).data, c.isWhitespace = false ∧ c ≠ '\n')
    ∧ (qRepr q).data ≠ [] := by
  unfold qRepr
  by_cases h : q.den = 1
  · simp only [h, if_true]
    exact intRepr_clean _
  · simp only [h, if_false, String.data_append]
    constructor
    · intro c hc
      rcases List.mem_append.mp hc with hc | hc
      · rcases List.mem_append.mp hc with hc | hc
        · exact (intRepr_clean _).1 c hc
        · simp only [show ("/" : String).data = ['/'] from rfl, List.mem_singleton] at hc
          subst hc; exact ⟨rfl, by decide⟩
      · exact (natRepr_clean _).1 c hc
    · intro hcon
      rcases List.append_eq_nil.mp hcon with ⟨h1, h2⟩
      exact (natRepr_clean _).2 h2

/-! ## Shared lemmas: context joining -/

theorem joinSp_concat_last (ys : List String) (e : String) :
    ∃ p, (joinSp (ys ++ [e])).data = p ++ e.data := by
  induction ys with
  | nil => exact ⟨[], by simp [joinSp]⟩
  | cons y ys ih =>
    obtain ⟨p, hp⟩ := ih
    cases hys : ys ++ [e] with
    | nil => simp at hys
    | cons z t =>
      refine ⟨y.data ++ ' ' :: p, ?_⟩
      rw [hys] at hp
      have : joinSp (y :: ys ++ [e]) = y ++ " " ++ joinSp (z :: t) := by
        rw [List.cons_append, hys]
        rfl
      rw [this]
      simp [String.data_append, hp, show (" " : String).data = [' '] from rfl]

theorem lastN_concat (n : ℕ) (xs : List String) (e : String) (hn : 0 < n) :
    ∃ ys, lastN n (xs ++ [e]) = ys ++ [e] := by
  refine ⟨xs.drop (xs.length + 1 - n), ?_⟩
  unfold lastN
  rw [List.length_append]
  simp only [List.length_cons, List.length_nil]
  rw [List.drop_append_of_le_length (by omega)]

/-! ## Shared lemmas: the watchlist store -/

theorem wlLookup_wlInsert_self (wl : Watchlist) (k : String) (e : Entry) :
    wlLookup (wlInsert wl k e) k = some e := by
  unfold wlInsert wlLookup
  by_cases h : (wl.any fun p => p.1 = k) = true
  · rw [if_pos h]
    induction wl with
    | nil => simp at h
    | cons p t ih =>
      by_cases hp : p.1 = k
      · simp [hp]
      · have ht : (t.any fun p => p.1 = k) = true := by
          simp only [List.any_cons, Bool.or_eq_true, decide_eq_true_eq] at h
          rcases h with h | h
          · exact absurd h hp
          · exact h
        rw [List.map_cons, if_neg hp,
          @List.find?_cons_of_neg _ (fun q => decide (q.1 = k)) p _ (by simp [hp])]
        exact ih ht
  · rw [if_neg h]
    induction wl with
    | nil => simp
    | cons p t ih =>
      have hp : ¬ p.1 = k := by
        intro hc
        exact h (by simp [List.any_cons, hc])
      have ht : ¬ (t.any fun p => p.1 = k) = true := by
        intro hc
        exact h (by simp [List.any_cons, hc])
      rw [List.cons_append,
        @List.find?_cons_of_neg _ (fun q => decide (q.1 = k)) p _ (by simp [hp])]
      exact ih ht

theorem wlInsert_keys_of_mem (wl : Watchlist) (k : String) (e : Entry)
    (h : (wl.any fun p => p.1 = k) = true) :
    (wlInsert wl k e).map Prod.fst = wl.map Prod.fst := by
  unfold wlInsert
  rw [if_pos h, List.map_map]
  refine List.map_congr_left ?_
  intro p _
  by_cases hp : p.1 = k
  · simp [Function.comp, hp]
  · simp [Function.comp, hp]

theorem wlInsert_keys_of_not_mem (wl : Watchlist) (k : String) (e : Entry)
    (h : ¬ (wl.any fun p => p.1 = k) = true) :
    (wlInsert wl k e).map Prod.fst = wl.map Prod.fst ++ [k] := by
  unfold wlInsert
  rw [if_neg h]
  simp

theorem wlInsert_mem_self (wl : Watchlist) (k : String) (e : Entry) :
    (k, e) ∈ wlInsert wl k e := by
  unfold wlInsert
  by_cases h : (wl.any fun p => p.1 = k) = true
  · rw [if_pos h]
    simp only [List.any_eq_true, decide_eq_true_eq] at h
    obtain ⟨p, hp, hpk⟩ := h
    exact List.mem_map.mpr ⟨p, hp, by simp [hpk]⟩
  · rw [if_neg h]
    simp

theorem filter_key_length (wl : Watchlist) (S : String) :
    (wl.filter fun p => p.1 = S).length = (wl.map Prod.fst).count S := by
  induction wl with
  | nil => simp
  | cons p t ih =>
    by_cases hp : p.1 = S
    · simp [List.filter_cons, hp, List.count_cons, ih]
    · simp [List.filter_cons, hp, List.count_cons, Ne.symm hp, ih]

/-! ## Shared lemmas: the rendered watchlist -/

theorem interNl_concat_last (ld : List (List Char)) (hne : ld ≠ [])
    (hl : ∀ l ∈ ld, ∃ l₀ cl, l = l₀ ++ [cl] ∧ cl.isWhitespace = false) :
    ∃ β cl, interNl ld = β ++ [cl] ∧ cl.isWhitespace = false := by
  induction ld with
  | nil => exact absurd rfl hne
  | cons x rest ih =>
    cases rest with
    | nil =>
      obtain ⟨l₀, cl, hx, hcl⟩ := hl x (by simp)
      exact ⟨l₀, cl, by simpa [interNl] using hx, hcl⟩
    | cons y t =>
      obtain ⟨β, cl, hi, hcl⟩ := ih (by simp) (fun l hlm => hl l (List.mem_cons_of_mem x hlm))
      refine ⟨x ++ '\n' :: β, cl, ?_, hcl⟩
      simp [interNl, hi]

theorem wlBody_data (wl : Watchlist) (hne : wl ≠ []) :
    (wlBody wl).data = interNl (wl.map fun p => (entryLine p).data) ++ ['\n'] := by
  induction wl with
  | nil => exact absurd rfl hne
  | cons p t ih =>
    cases t with
    | nil => simp [wlBody, interNl, String.data_append]
    | cons q r =>
      have h2 := ih (by simp)
      show (entryLine p ++ "\n" ++ wlBody (q :: r)).data = _
      rw [String.data_append, String.data_append, h2]
      simp only [List.map_cons, interNl]
      simp [String.data_append, List.append_assoc]

theorem entryLine_data_split (p : String × Entry) :
    ∃ l₀ cl, (entryLine p).data = l₀ ++ [cl] ∧ cl.isWhitespace = false ∧ cl ≠ '\n' := by
  have hq := qRepr_clean p.2.high
  rcases List.eq_nil_or_concat (qRepr p.2.high).data with h | ⟨γ, cl, h⟩
  · exact absurd h hq.2
  · have hcl := hq.1 cl (by rw [h]; simp)
    refine ⟨("- " ++ p.1 ++ ": Low=" ++ qRepr p.2.low ++ ", High=").data ++ γ, cl, ?_, hcl.1, hcl.2⟩
    have : (entryLine p).data
        = ("- " ++ p.1 ++ ": Low=" ++ qRepr p.2.low ++ ", High=").data
          ++ (qRepr p.2.high).data := by
      simp [entryLine, String.data_append]
    rw [this, h, List.concat_eq_append, List.append_assoc]

theorem entryLine_no_newline (p : String × Entry) (hkey : ∀ c ∈ p.1.data, c ≠ '\n') :
    ∀ c ∈ (entryLine p).data, c ≠ '\n' := by
  intro c hc
  have : (entryLine p).data
      = ("- " : String).data ++ p.1.data ++ (": Low=" : String).data
        ++ (qRepr p.2.low).data ++ (", High=" : String).data ++ (qRepr p.2.high).data := by
    simp [entryLine, String.data_append]
  rw [this] at hc
  simp only [List.append_assoc, List.mem_append] at hc
  rcases hc with hc | hc | hc | hc | hc | hc
  · exact (by decide : ∀ x ∈ ("- " : String).data, x ≠ '\n') c hc
  · exact hkey c hc
  · exact (by decide : ∀ x ∈ (": Low=" : String).data, x ≠ '\n') c hc
  · exact ((qRepr_clean p.2.low).1 c hc).2
  · exact (by decide : ∀ x ∈ (", High=" : String).data, x ≠ '\n') c hc
  · exact ((qRepr_clean p.2.high).1 c hc).2

theorem get_watchlist_lines (wl : Watchlist) (hne : wl ≠ [])
    (hkeys : ∀ p ∈ wl, ∀ c ∈ p.1.data, c ≠ '\n') :
    pySplitLines (get_watchlist wl) = "Current Watchlist:" :: wl.map entryLine := by
  have hwe : wl.isEmpty = false := by
    cases wl with
    | nil => exact absurd rfl hne
    | cons p t => rfl
  obtain ⟨β, cl, hint, hcl⟩ := interNl_concat_last (wl.map fun p => (entryLine p).data)
    (by simpa using hne)
    (by
      intro l hlm
      obtain ⟨p, hp, hpe⟩ := List.mem_map.mp hlm
      obtain ⟨l₀, c, he, hc1, _⟩ := entryLine_data_split p
      exact ⟨l₀, c, by rw [← hpe, he], hc1⟩)
  have hdata : ("Current Watchlist:\n" ++ wlBody wl).data
      = 'C' :: (("urrent Watchlist:" : String).data ++ '\n' :: (β ++ [cl] ++ ['\n'])) := by
    rw [String.data_append, wlBody_data wl hne, hint]
    simp [List.append_assoc]
  have hstrip : pyStripChars (("Current Watchlist:\n" ++ wlBody wl).data)
      = 'C' :: (("urrent Watchlist:" : String).data ++ '\n' :: β ++ [cl]) := by
    rw [hdata]
    have := pyStripChars_wrap 'C' (("urrent Watchlist:" : String).data ++ '\n' :: β) cl
      (by decide) hcl
    simp only [List.append_assoc, List.cons_append] at this ⊢
    exact this
  have hsplit : splitCharL '\n' ('C' :: (("urrent Watchlist:" : String).data ++ '\n' :: β ++ [cl]))
      = ("Current Watchlist:" : String).data :: (wl.map fun p => (entryLine p).data) := by
    have hrest : splitCharL '\n' ('\n' :: (β ++ [cl]))
        = [] :: (wl.map fun p => (entryLine p).data) := by
      rw [splitCharL_sep_cons, ← hint]
      rw [splitCharL_interNl _ (by simpa using hne)]
      intro l hlm
      obtain ⟨p, hp, hpe⟩ := List.mem_map.mp hlm
      rw [← hpe]
      exact entryLine_no_newline p (hkeys p hp)
    have := splitCharL_append_clean '\n' (("Current Watchlist:" : String).data)
      ('\n' :: (β ++ [cl])) (by decide) _ _ hrest
    simp only [List.append_nil] at this
    have hshape : ('C' :: (("urrent Watchlist:" : String).data ++ '\n' :: β ++ [cl]))
        = ("Current Watchlist:" : String).data ++ ('\n' :: (β ++ [cl])) := by
      simp [List.append_assoc]
    rw [hshape, this]
  unfold pySplitLines get_watchlist
  rw [if_neg (by simp [hwe])]
  show (splitCharL '\n' (pyStripChars _)).map _ = _
  rw [hstrip, hsplit]
  simp only [List.map_cons, List.map_map]
  rfl

/-! ## Claim C5 -/

/-- C5 counterexample: with `low = 10 > high = 5` the price `5` *equals*
the high bound, yet `check_price_limit` returns `true` — refuting, as
stated for all bounds, that the function "returns false when price equals
low or equals high". -/
theorem check_price_limit_boundary_counterexample :
    check_price_limit 5 10 5 = true := by
  unfold check_price_limit
  norm_num

/-- C5 (amended): `check_price_limit price low high` is `true` iff
`price < low` or `price > high` (strict inequalities), and *whenever
`low ≤ high`* both boundary values count as in-range. -/
theorem check_price_limit_spec (price low high : ℚ) :
    (check_price_limit price low high = true ↔ price < low ∨ price > high)
    ∧ (low ≤ high →
        check_price_limit low low high = false ∧ check_price_limit high low high = false) := by
  refine ⟨?_, fun h => ⟨?_, ?_⟩⟩
  · unfold check_price_limit
    split
    · rename_i hc; simp [hc]
    · rename_i hc; simp [hc]
  · unfold check_price_limit
    split
    · rename_i hc
      rcases hc with hc | hc
      · exact absurd hc (lt_irrefl _)
      · exact absurd h (not_le.mpr hc)
    · rfl
  · unfold check_price_limit
    split
    · rename_i hc
      rcases hc with hc | hc
      · exact absurd h (not_le.mpr hc)
      · exact absurd hc (lt_irrefl _)
    · rfl

/-- C5 witness: at `low = 5 ≤ high = 10` both boundaries are in-range. -/
theorem check_price_limit_spec_witness :
    check_price_limit 5 5 10 = false ∧ check_price_limit 10 5 10 = false :=
  (check_price_limit_spec 7 5 10).2 (by norm_num)

/-! ## Claim C6 -/

/-- C6: removing a symbol whose normalised form is absent returns the
not-found message (no exception) and leaves the watchlist unchanged. -/
theorem remove_from_watchlist_absent (s : String) (wl : Watchlist)
    (h : wlLookup wl (pyNorm s) = none) :
    remove_from_watchlist s wl = (pyNorm s ++ " not found in watchlist", wl) := by
  unfold remove_from_watchlist
  have hany : (wl.any fun p => p.1 = pyNorm s) = false := by
    unfold wlLookup at h
    rcases hfind : wl.find? fun p => p.1 = pyNorm s with _ | p
    · rw [List.find?_eq_none] at hfind
      rw [List.any_eq_false]
      intro p hp
      simpa using hfind p hp
    · rw [hfind] at h
      simp at h
  simp [hany]

/-- C6 witness: removing `"msft"` from a one-entry store. -/
theorem remove_from_watchlist_absent_witness :
    remove_from_watchlist "msft" [("AAPL", ⟨1, 2, "t"⟩)]
      = ("MSFT not found in watchlist", [("AAPL", ⟨1, 2, "t"⟩)]) :=
  remove_from_watchlist_absent "msft" [("AAPL", ⟨1, 2, "t"⟩)] (by decide)

/-! ## Claim C9 -/

/-- C9: `generate_alert` returns `None` exactly when the status flag is
unset or the price is within the (inclusive) range; with the flag set it
produces the BELOW message for a price strictly below `low`, else the
ABOVE message for a price strictly above `high`. -/
theorem generate_alert_spec (status : Bool) (symbol : String) (price low high : ℚ) :
    (generate_alert status symbol price low high = none
        ↔ status = false ∨ (low ≤ price ∧ price ≤ high))
    ∧ (status = true → price < low →
        generate_alert status symbol price low high
          = some (alarmMark ++ " ALERT: " ++ symbol ++ " price $" ++ qRepr price
              ++ " is BELOW threshold range (" ++ qRepr low ++ ", " ++ qRepr high ++ ")"))
    ∧ (status = true → ¬ price < low → price > high →
        generate_alert status symbol price low high
          = some (alarmMark ++ " ALERT: " ++ symbol ++ " price $" ++ qRepr price
              ++ " is ABOVE threshold range (" ++ qRepr low ++ ", " ++ qRepr high ++ ")")) := by
  unfold generate_alert
  cases status with
  | false => simp
  | true =>
    by_cases h1 : price < low
    · simp [h1, not_le.mpr h1]
    · by_cases h2 : price > high
      · simp [h1, h2, not_le.mpr h2]
      · simp [h1, h2, not_lt.mp h1, not_lt.mp h2]

/-- C9 witness: flag set, price between the bounds, no alert. -/
theorem generate_alert_spec_witness :
    generate_alert true "A" 15 10 20 = none :=
  (generate_alert_spec true "A" 15 10 20).1.mpr (by norm_num)

/-! ## Claim C8 -/

/-- C8: with a non-empty history, the volatility method with fewer than 5
return observations — and the moving-average method with fewer than 20
price observations — answer the insufficient-data string naming the
normalised symbol (never an exception); an empty history answers the
could-not-fetch string, also naming the symbol. -/
theorem suggest_thresholds_insufficient (oc : Oracles) (symbol : String)
    (percentage days : Param) :
    (oc.histOf (pyNorm symbol) (renderParam days ++ "d") = [] →
       suggest_thresholds oc symbol (.pstr "volatility") percentage days
         = .str ("Could not fetch historical data for " ++ pyNorm symbol)
       ∧ suggest_thresholds oc symbol (.pstr "moving_average") percentage days
         = .str ("Could not fetch historical data for " ++ pyNorm symbol))
    ∧ (oc.histOf (pyNorm symbol) (renderParam days ++ "d") ≠ [] →
        ((pct_change (oc.histOf (pyNorm symbol) (renderParam days ++ "d"))).length < 5 →
          suggest_thresholds oc symbol (.pstr "volatility") percentage days
            = .str ("Not enough data for volatility analysis of " ++ pyNorm symbol))
        ∧ ((oc.histOf (pyNorm symbol) (renderParam days ++ "d")).length < 20 →
          suggest_thresholds oc symbol (.pstr "moving_average") percentage days
            = .str ("Not enough data for moving average analysis of " ++ pyNorm symbol))) := by
  constructor
  · intro hemp
    constructor <;> simp [suggest_thresholds, hemp]
  · intro hne
    have hie : (oc.histOf (pyNorm symbol) (renderParam days ++ "d")).isEmpty = false := by
      rcases hh : oc.histOf (pyNorm symbol) (renderParam days ++ "d") with _ | ⟨a, t⟩
      · exact absurd hh hne
      · rfl
    constructor
    · intro hlen
      simp only [suggest_thresholds, hie, Bool.false_eq_true, if_false]
      simp [hlen]
    · intro hlen
      simp only [suggest_thresholds, hie, Bool.false_eq_true, if_false]
      simp [hlen]

/-- C8 witness: a three-point history has two return observations
(fewer than 5) and fewer than 20 prices. -/
theorem suggest_thresholds_insufficient_witness :
    suggest_thresholds sampleOracles "ibm" (.pstr "volatility") (.pint 5) (.pint 30)
      = .str ("Not enough data for volatility analysis of " ++ pyNorm "ibm")
    ∧ suggest_thresholds sampleOracles "ibm" (.pstr "moving_average") (.pint 5) (.pint 30)
      = .str ("Not enough data for moving average analysis of " ++ pyNorm "ibm") :=
  ⟨((suggest_thresholds_insufficient sampleOracles "ibm" (.pint 5) (.pint 30)).2
      (by decide)).1 (by decide),
   ((suggest_thresholds_insufficient sampleOracles "ibm" (.pint 5) (.pint 30)).2
      (by decide)).2 (by decide)⟩

/-! ## Claim C10 -/

theorem monitor_foldl_report (priceOf : String → Option ℚ) (l : Watchlist)
    (alerts : List String) (report : String) :
    ∃ alerts2 extra,
      l.foldl (monitorStep priceOf) (alerts, report) = (alerts2, report ++ extra) := by
  induction l generalizing alerts report with
  | nil => exact ⟨alerts, "", by simp⟩
  | cons p t ih =>
    have hstep : ∃ a2 piece, monitorStep priceOf (alerts, report) p = (a2, report ++ piece) := by
      unfold monitorStep
      cases hq : get_stock_price priceOf p.1 with
      | none =>
        refine ⟨alerts, "- " ++ p.1 ++ ": Could not fetch price\n", ?_⟩
        simp [String.append_assoc]
      | some q =>
        by_cases hc : check_price_limit q p.2.low p.2.high = true
        · refine ⟨alerts ++ [(generate_alert true p.1 q p.2.low p.2.high).getD ""],
            "- " ++ p.1 ++ ": $" ++ qRepr q ++ " " ++ warnMark ++ " OUT OF RANGE\n", ?_⟩
          simp [hc, String.append_assoc]
        · refine ⟨alerts, "- " ++ p.1 ++ ": $" ++ qRepr q ++ " " ++ okMark ++ " In range\n", ?_⟩
          simp [hc, String.append_assoc]
    obtain ⟨a2, piece, hs⟩ := hstep
    obtain ⟨a3, extra, h3⟩ := ih a2 (report ++ piece)
    exact ⟨a3, piece ++ extra, by rw [List.foldl_cons, hs, h3, String.append_assoc]⟩

/-- C10: `monitor_all_stocks` on an empty watchlist returns exactly the
fixed sentinel string, while on a non-empty watchlist the result starts
with the timestamped report header (and so is never the sentinel):
the header-plus-lines format applies only to non-empty watchlists. -/
theorem monitor_all_stocks_empty_spec (oc : Oracles) (wl : Watchlist) :
    monitor_all_stocks oc [] = "No stocks in watchlist to monitor"
    ∧ (wl ≠ [] → ∃ rest, monitor_all_stocks oc wl
        = ("Monitoring Report - " ++ oc.now ++ "\n") ++ rest
        ∧ monitor_all_stocks oc wl ≠ "No stocks in watchlist to monitor") := by
  constructor
  · rfl
  · intro hne
    have hwe : wl.isEmpty = false := by
      cases wl with
      | nil => exact absurd rfl hne
      | cons p t => rfl
    obtain ⟨a2, extra, hf⟩ := monitor_foldl_report oc.priceOf wl []
      ("Monitoring Report - " ++ oc.now ++ "\n")
    have hform : ∃ rest, monitor_all_stocks oc wl
        = ("Monitoring Report - " ++ oc.now ++ "\n") ++ rest := by
      unfold monitor_all_stocks
      rw [if_neg (by simp [hwe]), hf]
      by_cases ha : a2.isEmpty = true
      · exact ⟨extra ++ "\nAll stocks within range", by simp [ha, String.append_assoc]⟩
      · exact ⟨extra ++ ("\nALERTS:\n" ++ joinNl a2), by simp [ha, String.append_assoc]⟩
    obtain ⟨rest, hr⟩ := hform
    refine ⟨rest, hr, ?_⟩
    rw [hr]
    intro hcon
    have hd := congrArg String.data hcon
    rw [String.data_append, String.data_append, String.data_append] at hd
    have hM : ("Monitoring Report - " : String).data
        = 'M' :: ("onitoring Report - " : String).data := rfl
    have hN : ("No stocks in watchlist to monitor" : String).data
        = 'N' :: ("o stocks in watchlist to monitor" : String).data := rfl
    rw [hM, hN] at hd
    simp only [List.cons_append, List.append_assoc] at hd
    exact absurd (List.head_eq_of_cons_eq hd) (by decide)

/-- C10 witness: a two-entry watchlist produces the header format. -/
theorem monitor_all_stocks_empty_spec_witness :
    monitor_all_stocks sampleOracles [] = "No stocks in watchlist to monitor"
    ∧ ∃ rest, monitor_all_stocks sampleOracles [("AAPL", ⟨1, 2, "t"⟩)]
        = ("Monitoring Report - " ++ sampleOracles.now ++ "\n") ++ rest
        ∧ monitor_all_stocks sampleOracles [("AAPL", ⟨1, 2, "t"⟩)]
            ≠ "No stocks in watchlist to monitor" :=
  ⟨(monitor_all_stocks_empty_spec sampleOracles []).1,
   (monitor_all_stocks_empty_spec sampleOracles [("AAPL", ⟨1, 2, "t"⟩)]).2 (by decide)⟩

/-! ## Claim C2 -/

/-- C2 counterexample: a comma-only argument list is *not* split — the
whole payload is taken as the function name with no arguments — while the
pipe form parses into name and coerced arguments, so comma and pipe are
not interchangeable delimiters. -/
theorem delimiter_comma_only_counterexample :
    parseResponseFunctionCall "FUNCTION_CALL: add_to_watchlist,aapl,240,245"
      = some ("add_to_watchlist,aapl,240,245", [])
    ∧ parseResponseFunctionCall "FUNCTION_CALL: add_to_watchlist|aapl|240|245"
      = some ("add_to_watchlist", [.pstr "aapl", .pint 240, .pint 245])
    ∧ (("add_to_watchlist,aapl,240,245" : String), ([] : List Param))
        ≠ (("add_to_watchlist" : String), [Param.pstr "aapl", .pint 240, .pint 245]) := by
  refine ⟨by decide, by decide, by decide⟩

theorem joinFrags_pipe_mem (nf : List Char) (ps : List (Char × List Char))
    (hpipe : ∃ p ∈ ps, p.1 = '|') : '|' ∈ joinFrags nf ps := by
  obtain ⟨p, hp, hd⟩ := hpipe
  unfold joinFrags
  rw [List.mem_append]
  right
  induction ps with
  | nil => simp at hp
  | cons q rest ih =>
    rcases List.mem_cons.mp hp with rfl | hp2
    · simp [hd]
    · simp only [List.foldr_cons, List.mem_cons, List.mem_append]
      right; right
      have := ih hp2
      simpa using this

/-- C2 (amended): when at least one delimiter of the payload is a pipe,
pipe and comma are interchangeable — the parse (function name, coerced
argument sequence, whitespace trimmed, empty fragments dropped) does not
depend on which of the two delimiters separates each argument.  (The
counterexample shows the pipe-free case differs.) -/
theorem delimiter_interchange (nf : List Char) (ps : List (Char × List Char))
    (hnf : ∀ c ∈ nf, ¬(c = '|' ∨ c = ','))
    (hps : ∀ p ∈ ps, (p.1 = '|' ∨ p.1 = ',') ∧ ∀ c ∈ p.2, ¬(c = '|' ∨ c = ','))
    (hpipe : ∃ p ∈ ps, p.1 = '|')
    (htrim : pyStripChars (joinFrags nf ps) = joinFrags nf ps)
    (htrim2 : pyStripChars (joinFrags nf (ps.map fun p => ('|', p.2)))
        = joinFrags nf (ps.map fun p => ('|', p.2))) :
    parseFunctionInfo ⟨joinFrags nf ps⟩
      = parseFunctionInfo ⟨joinFrags nf (ps.map fun p => ('|', p.2))⟩ := by
  have hne : ps ≠ [] := by
    obtain ⟨p, hp, _⟩ := hpipe
    intro hcon
    rw [hcon] at hp
    simp at hp
  have hc1 : sContains ⟨joinFrags nf ps⟩ "|" = true := by
    unfold sContains
    rw [show ("|" : String).data = ['|'] from rfl]
    exact (hasSubstrL_singleton _ _).mpr (joinFrags_pipe_mem nf ps hpipe)
  have hc2 : sContains ⟨joinFrags nf (ps.map fun p => ('|', p.2))⟩ "|" = true := by
    unfold sContains
    rw [show ("|" : String).data = ['|'] from rfl]
    refine (hasSubstrL_singleton _ _).mpr (joinFrags_pipe_mem nf _ ?_)
    cases ps with
    | nil => exact absurd rfl hne
    | cons q rest => exact ⟨('|', q.2), by simp⟩
  have hsplit1 : splitDelimsL (joinFrags nf ps) = nf :: ps.map Prod.snd :=
    splitDelimsL_joinFrags nf ps hnf hps
  have hsplit2 : splitDelimsL (joinFrags nf (ps.map fun p => ('|', p.2)))
      = nf :: (ps.map fun p => ('|', p.2)).map Prod.snd :=
    splitDelimsL_joinFrags nf _ hnf
      (by
        intro q hq
        obtain ⟨p, hp, hpe⟩ := List.mem_map.mp hq
        refine ⟨by rw [← hpe]; left; rfl, ?_⟩
        intro c hc
        rw [← hpe] at hc
        exact (hps p hp).2 c hc)
  unfold parseFunctionInfo
  rw [hc1, hc2, if_pos rfl, if_pos rfl]
  unfold splitDelims pyStrip
  dsimp only
  rw [htrim, htrim2, hsplit1, hsplit2]
  simp only [List.map_map]
  rfl

/-- C2 witness: `name,a|b,c` and `name|a|b|c` parse identically. -/
theorem delimiter_interchange_witness :
    parseFunctionInfo
        ⟨joinFrags "add_to_watchlist".data
          [(',', "aapl".data), ('|', "240".data), (',', "245".data)]⟩
      = parseFunctionInfo
        ⟨joinFrags "add_to_watchlist".data
          (([(',', "aapl".data), ('|', "240".data), (',', "245".data)]).map
            fun p => ('|', p.2))⟩ :=
  delimiter_interchange _ _ (by decide) (by decide) (by decide) (by decide) (by decide)

/-! ## Claim C4 -/

/-- C4 counterexample: the line parses to the *raw* arguments
`"aapl"` (not upper-cased) and the Python ints `240`, `245` (not floats)
— the coercions the claim places "at dispatch" do not happen there. -/
theorem dispatch_coercion_counterexample :
    parseResponseFunctionCall "FUNCTION_CALL: add_to_watchlist|aapl|240|245"
      = some ("add_to_watchlist", [.pstr "aapl", .pint 240, .pint 245])
    ∧ ([Param.pstr "aapl", .pint 240, .pint 245]
        ≠ [Param.pstr "AAPL", .pfloat 240, .pfloat 245]) := by
  refine ⟨by decide, ?_⟩
  intro hcon
  have h2 := List.head_eq_of_cons_eq hcon
  simp at h2

/-- C4 (amended): the line parses to
`add_to_watchlist("aapl", 240, 245)` with the symbol still lower-case and
the numerals as ints; dispatching that call through `function_caller`
upper-cases the symbol and coerces both thresholds with `float()` inside
`add_to_watchlist`, so the store ends up mapping `"AAPL"` to
`low = 240.0`, `high = 245.0`. -/
theorem dispatch_add_normalises_inside (oc : Oracles) (wl : Watchlist) :
    function_caller oc "add_to_watchlist" [.pstr "aapl", .pint 240, .pint 245] wl
      = (.ok (.vstr "Added AAPL to watchlist: Low=240, High=245"),
         wlInsert wl "AAPL" ⟨240, 245, oc.now⟩)
    ∧ wlLookup (wlInsert wl "AAPL" ⟨240, 245, oc.now⟩) "AAPL"
        = some ⟨240, 245, oc.now⟩ := by
  constructor
  · show function_caller oc "add_to_watchlist" [.pstr "aapl", .pint 240, .pint 245] wl = _
    unfold function_caller
    rw [if_neg (by decide), if_neg (by decide), if_pos rfl]
    show (match add_to_watchlist oc.now "aapl" (.pint 240) (.pint 245) wl with
          | .ok (msg, wl2) => ((.ok (.vstr msg) : ExecOutcome), wl2)
          | .error e => (.exc e, wl)) = _
    unfold add_to_watchlist
    have h240 : pyFloat (.pint 240) = some ((240 : ℤ) : ℚ) := rfl
    have h245 : pyFloat (.pint 245) = some ((245 : ℤ) : ℚ) := rfl
    rw [h240, h245]
    have hn : pyNorm "aapl" = "AAPL" := by decide
    have hmsg : ("Added " ++ pyNorm "aapl" ++ " to watchlist: Low="
        ++ renderParam (.pint 240) ++ ", High=" ++ renderParam (.pint 245))
        = "Added AAPL to watchlist: Low=240, High=245" := by decide
    simp only [hn]
    refine Prod.ext ?_ ?_
    · show ExecOutcome.ok (.vstr _) = ExecOutcome.ok (.vstr _)
      rw [show ("Added " ++ "AAPL" ++ " to watchlist: Low="
          ++ renderParam (.pint 240) ++ ", High=" ++ renderParam (.pint 245))
          = "Added AAPL to watchlist: Low=240, High=245" by decide]
    · show wlInsert wl "AAPL" ⟨((240 : ℤ) : ℚ), ((245 : ℤ) : ℚ), oc.now⟩
          = wlInsert wl "AAPL" ⟨240, 245, oc.now⟩
      norm_num
  · exact wlLookup_wlInsert_self wl "AAPL" ⟨240, 245, oc.now⟩

/-! ## Claim C1 -/

theorem classify_badResponse : classify (pyStrip badResponse) = .fnCallNoLine := by decide

theorem step_badResponse (oc : Oracles) (st : AgentState) :
    step oc badResponse st = .cont st := by
  unfold step
  dsimp only
  rw [classify_badResponse]

/-- C1 refutation (the code, not the claim, is at fault): when the model
response contains the `FUNCTION_CALL:` marker but no line starts with it,
the `continue` of line 328 skips `iteration += 1`, so the loop never
consumes an iteration and `run_stock_agent` never terminates — for every
finite number of loop passes (`fuel`) the run is still unfinished,
contradicting the claimed `max_iterations` bound. -/
theorem run_stock_agent_runaway (oc : Oracles) (model : ℕ → String)
    (hm : ∀ k, model k = badResponse) (max_iterations fuel : ℕ)
    (hpos : 0 < max_iterations) (wl0 : Watchlist) :
    run_stock_agent oc model max_iterations wl0 fuel = none := by
  suffices h : ∀ fuel k (st : AgentState), st.iteration < max_iterations →
      runAux oc model max_iterations fuel k st = none by
    exact h fuel 0 ⟨0, [], none, wl0⟩ hpos
  intro fuel
  induction fuel with
  | zero => intro k st _; rfl
  | succ fuel ih =>
    intro k st hlt
    unfold runAux
    rw [if_pos hlt, hm k, step_badResponse]
    exact ih (k + 1) st hlt

/-- C1 witness: two allowed iterations, seven passes of fuel, still no
termination. -/
theorem run_stock_agent_runaway_witness :
    run_stock_agent sampleOracles (fun _ => badResponse) 2 [] 7 = none :=
  run_stock_agent_runaway sampleOracles (fun _ => badResponse) (fun _ => rfl) 2 7
    (by decide) []

/-! ## Claim C3 -/

theorem sContains_promptOf_entry (query : String) (v : PyVal) (it : ℕ)
    (xs : List String) (pre entry res : String) (wl : Watchlist)
    (hent : entry.data = pre.data ++ res.data) :
    sContains (promptOf query ⟨it, xs ++ [entry], some v, wl⟩) res = true := by
  obtain ⟨ys, hys⟩ := lastN_concat 3 xs entry (by norm_num)
  obtain ⟨p, hp⟩ := joinSp_concat_last ys entry
  apply sContains_of_decomp _ _
    ((systemPrompt ++ "\n\nQuery: " ++ query ++ "\n\nContext: ").data ++ (p ++ pre.data))
    (("\n\nWhat should I do next?" : String).data)
  show (promptOf query _).data = _
  unfold promptOf
  dsimp only
  rw [String.data_append, String.data_append, hys, hp, hent]
  simp [String.data_append, List.append_assoc]

/-- C3 (amended): in a pass that dispatches a function call, a *returned*
string — error message or success alike — always appears in the next
pass's prompt context; the text of a *caught exception* appears there
only when some earlier pass already produced a result
(`last_response` non-`None`).  (The counterexample shows the exception
text is absent when no result preceded it.) -/
theorem recoverable_error_in_next_prompt (oc : Oracles) (query raw line : String)
    (st st2 : AgentState)
    (hline : classify (pyStrip raw) = .fnCallLine line)
    (hstep : step oc raw st = .cont st2) :
    (∀ res wl2,
      function_caller oc (parseFunctionInfo (pyStrip (afterFirstColon line))).1
          (parseFunctionInfo (pyStrip (afterFirstColon line))).2 st.wl
        = (.ok (.vstr res), wl2) →
      sContains (promptOf query st2) res = true)
    ∧ (∀ e wl2,
      function_caller oc (parseFunctionInfo (pyStrip (afterFirstColon line))).1
          (parseFunctionInfo (pyStrip (afterFirstColon line))).2 st.wl
        = (.exc e, wl2) →
      st.lastResponse.isSome = true →
      sContains (promptOf query st2) e = true) := by
  unfold step at hstep
  dsimp only at hstep
  rw [hline] at hstep
  dsimp only at hstep
  constructor
  · intro res wl2 hcall
    rw [hcall] at hstep
    have hst2 : st2 = ⟨st.iteration + 1,
        st.itResponses ++ ["Iteration " ++ natRepr (st.iteration + 1) ++ ": Called "
          ++ (parseFunctionInfo (pyStrip (afterFirstColon line))).1 ++ "("
          ++ paramsRepr (parseFunctionInfo (pyStrip (afterFirstColon line))).2 ++ ") -> "
          ++ renderPyVal (.vstr res)],
        some (.vstr res), wl2⟩ := by
      cases hstep
      rfl
    rw [hst2]
    exact sContains_promptOf_entry query (.vstr res) (st.iteration + 1) st.itResponses
      ("Iteration " ++ natRepr (st.iteration + 1) ++ ": Called "
          ++ (parseFunctionInfo (pyStrip (afterFirstColon line))).1 ++ "("
          ++ paramsRepr (parseFunctionInfo (pyStrip (afterFirstColon line))).2 ++ ") -> ")
      _ res wl2 (by rw [String.data_append]; rfl)
  · intro e wl2 hcall hsome
    rw [hcall] at hstep
    obtain ⟨v, hv⟩ := Option.isSome_iff_exists.mp hsome
    have hst2 : st2 = ⟨st.iteration + 1,
        st.itResponses ++ ["Iteration " ++ natRepr (st.iteration + 1) ++ ": Error in "
          ++ (parseFunctionInfo (pyStrip (afterFirstColon line))).1 ++ ": " ++ e],
        some v, wl2⟩ := by
      cases hstep
      rw [hv]
    rw [hst2]
    exact sContains_promptOf_entry query v (st.iteration + 1) st.itResponses
      ("Iteration " ++ natRepr (st.iteration + 1) ++ ": Error in "
          ++ (parseFunctionInfo (pyStrip (afterFirstColon line))).1 ++ ": ")
      _ e wl2 (by rw [String.data_append])

set_option maxRecDepth 10000 in
/-- C3 counterexample: the very first pass dispatches
`add_to_watchlist` with one argument, the routed call raises (arity
error), the error is recorded in the history — but `last_response` is
still `None`, so the next prompt is built *without* a context section and
does not contain the error text. -/
theorem exception_lost_from_first_prompt :
    function_caller sampleOracles "add_to_watchlist" [.pstr "aapl"] []
      = (.exc "add_to_watchlist() missing required positional arguments", [])
    ∧ step sampleOracles "FUNCTION_CALL: add_to_watchlist|aapl" ⟨0, [], none, []⟩
      = .cont ⟨1,
          ["Iteration 1: Error in add_to_watchlist: add_to_watchlist() missing required positional arguments"],
          none, []⟩
    ∧ promptOf "q" ⟨1,
          ["Iteration 1: Error in add_to_watchlist: add_to_watchlist() missing required positional arguments"],
          none, []⟩
      = systemPrompt ++ "\n\nQuery: q"
    ∧ sContains (promptOf "q" ⟨1,
          ["Iteration 1: Error in add_to_watchlist: add_to_watchlist() missing required positional arguments"],
          none, []⟩)
        "add_to_watchlist() missing required positional arguments" = false := by
  refine ⟨by decide, by decide, rfl, by decide⟩

set_option maxRecDepth 10000 in
/-- C3 witness: a returned "function not found" error string appears in
the next prompt. -/
theorem recoverable_error_in_next_prompt_witness :
    sContains (promptOf "q" ⟨1,
        ["Iteration 1: Called bogus_fn([1]) -> Function bogus_fn not found"],
        some (.vstr "Function bogus_fn not found"), []⟩)
      "Function bogus_fn not found" = true :=
  (recoverable_error_in_next_prompt sampleOracles "q" "FUNCTION_CALL: bogus_fn|1"
      "FUNCTION_CALL: bogus_fn|1" ⟨0, [], none, []⟩
      ⟨1, ["Iteration 1: Called bogus_fn([1]) -> Function bogus_fn not found"],
        some (.vstr "Function bogus_fn not found"), []⟩
      (by decide) (by decide)).1
    "Function bogus_fn not found" [] (by decide)

/-! ## Claim C7 -/

theorem wlInsert_mem_cases (wl : Watchlist) (k : String) (e : Entry) :
    ∀ q ∈ wlInsert wl k e, q.1 = k ∨ q ∈ wl := by
  intro q hq
  unfold wlInsert at hq
  by_cases h : (wl.any fun p => p.1 = k) = true
  · rw [if_pos h] at hq
    obtain ⟨p, hp, hpe⟩ := List.mem_map.mp hq
    by_cases hpk : p.1 = k
    · left; rw [← hpe]; simp [hpk]
    · right; rw [← hpe]; simpa [hpk] using hp
  · rw [if_neg h] at hq
    rcases List.mem_append.mp hq with hq | hq
    · right; exact hq
    · left; simp only [List.mem_singleton] at hq; rw [hq]

theorem wlInsert_keys_nodup (wl : Watchlist) (k : String) (e : Entry)
    (hnd : (wl.map Prod.fst).Nodup) : ((wlInsert wl k e).map Prod.fst).Nodup := by
  by_cases h : (wl.any fun p => p.1 = k) = true
  · rw [wlInsert_keys_of_mem _ _ _ h]; exact hnd
  · rw [wlInsert_keys_of_not_mem _ _ _ h]
    have hk : k ∉ wl.map Prod.fst := by
      intro hc
      obtain ⟨p, hp, hpk⟩ := List.mem_map.mp hc
      refine h ?_
      rw [List.any_eq_true]
      exact ⟨p, hp, by simp [hpk]⟩
    rw [List.nodup_append]
    refine ⟨hnd, List.nodup_singleton k, ?_⟩
    intro a ha hb
    simp only [List.mem_singleton] at hb
    rw [hb] at ha
    exact hk ha

/-- C7: `add_to_watchlist s lo hi` stores the normalised symbol with
exactly the given (float-coerced) thresholds and `get_watchlist` lists its
line; a second add for the same symbol overwrites that single entry
(same keys, same length, exactly one entry under the key) rather than
duplicating; and `get_watchlist` renders a header plus exactly one line
per entry in insertion order — or the empty sentinel when no entries
exist. -/
theorem watchlist_add_overwrite_list (now now2 s : String) (lo hi lo2 hi2 : ℚ)
    (wl : Watchlist)
    (hnd : (wl.map Prod.fst).Nodup)
    (hkeys : ∀ p ∈ wl, ∀ c ∈ p.1.data, c ≠ '\n')
    (hsym : ∀ c ∈ (pyNorm s).data, c ≠ '\n') :
    add_to_watchlist now s (.pfloat lo) (.pfloat hi) wl
      = .ok ("Added " ++ pyNorm s ++ " to watchlist: Low=" ++ qRepr lo
              ++ ", High=" ++ qRepr hi,
             wlInsert wl (pyNorm s) ⟨lo, hi, now⟩)
    ∧ wlLookup (wlInsert wl (pyNorm s) ⟨lo, hi, now⟩) (pyNorm s) = some ⟨lo, hi, now⟩
    ∧ pySplitLines (get_watchlist (wlInsert wl (pyNorm s) ⟨lo, hi, now⟩))
        = "Current Watchlist:" :: (wlInsert wl (pyNorm s) ⟨lo, hi, now⟩).map entryLine
    ∧ entryLine (pyNorm s, ⟨lo, hi, now⟩)
        ∈ pySplitLines (get_watchlist (wlInsert wl (pyNorm s) ⟨lo, hi, now⟩))
    ∧ add_to_watchlist now2 s (.pfloat lo2) (.pfloat hi2)
        (wlInsert wl (pyNorm s) ⟨lo, hi, now⟩)
      = .ok ("Added " ++ pyNorm s ++ " to watchlist: Low=" ++ qRepr lo2
              ++ ", High=" ++ qRepr hi2,
             wlInsert (wlInsert wl (pyNorm s) ⟨lo, hi, now⟩) (pyNorm s) ⟨lo2, hi2, now2⟩)
    ∧ wlLookup (wlInsert (wlInsert wl (pyNorm s) ⟨lo, hi, now⟩) (pyNorm s)
          ⟨lo2, hi2, now2⟩) (pyNorm s) = some ⟨lo2, hi2, now2⟩
    ∧ (wlInsert (wlInsert wl (pyNorm s) ⟨lo, hi, now⟩) (pyNorm s)
          ⟨lo2, hi2, now2⟩).map Prod.fst
        = (wlInsert wl (pyNorm s) ⟨lo, hi, now⟩).map Prod.fst
    ∧ (wlInsert (wlInsert wl (pyNorm s) ⟨lo, hi, now⟩) (pyNorm s)
          ⟨lo2, hi2, now2⟩).length
        = (wlInsert wl (pyNorm s) ⟨lo, hi, now⟩).length
    ∧ ((wlInsert (wlInsert wl (pyNorm s) ⟨lo, hi, now⟩) (pyNorm s)
          ⟨lo2, hi2, now2⟩).filter fun p => p.1 = pyNorm s).length = 1
    ∧ get_watchlist [] = "Watchlist is empty" := by
  have hmem1 : ((pyNorm s), (⟨lo, hi, now⟩ : Entry)) ∈ wlInsert wl (pyNorm s) ⟨lo, hi, now⟩ :=
    wlInsert_mem_self wl (pyNorm s) ⟨lo, hi, now⟩
  have hany1 : ((wlInsert wl (pyNorm s) ⟨lo, hi, now⟩).any fun p => p.1 = pyNorm s) = true := by
    rw [List.any_eq_true]
    exact ⟨_, hmem1, by simp⟩
  have hkeys1 : ∀ p ∈ wlInsert wl (pyNorm s) ⟨lo, hi, now⟩, ∀ c ∈ p.1.data, c ≠ '\n' := by
    intro p hp
    rcases wlInsert_mem_cases wl (pyNorm s) ⟨lo, hi, now⟩ p hp with h | h
    · rw [h]; exact hsym
    · exact hkeys p h
  have hnd1 : ((wlInsert wl (pyNorm s) ⟨lo, hi, now⟩).map Prod.fst).Nodup :=
    wlInsert_keys_nodup wl (pyNorm s) ⟨lo, hi, now⟩ hnd
  have hk1 : pyNorm s ∈ (wlInsert wl (pyNorm s) ⟨lo, hi, now⟩).map Prod.fst :=
    List.mem_map.mpr ⟨_, hmem1, rfl⟩
  have hkeys2 : (wlInsert (wlInsert wl (pyNorm s) ⟨lo, hi, now⟩) (pyNorm s)
        ⟨lo2, hi2, now2⟩).map Prod.fst
      = (wlInsert wl (pyNorm s) ⟨lo, hi, now⟩).map Prod.fst :=
    wlInsert_keys_of_mem _ _ _ hany1
  refine ⟨rfl, wlLookup_wlInsert_self _ _ _, ?_, ?_, rfl, wlLookup_wlInsert_self _ _ _,
    hkeys2, ?_, ?_, rfl⟩
  · exact get_watchlist_lines _ (by intro hc; rw [hc] at hmem1; simp at hmem1) hkeys1
  · rw [get_watchlist_lines _ (by intro hc; rw [hc] at hmem1; simp at hmem1) hkeys1]
    exact List.mem_cons_of_mem _ (List.mem_map.mpr ⟨_, hmem1, rfl⟩)
  · have h1 := congrArg List.length hkeys2
    simpa using h1
  · rw [filter_key_length, hkeys2]
    exact List.count_eq_one_of_mem hnd1 hk1

/-- C7 witness: adding `"aapl"` twice to an empty store. -/
theorem watchlist_add_overwrite_list_witness :
    add_to_watchlist "T0" "aapl" (.pfloat 240) (.pfloat 245) []
      = .ok ("Added " ++ pyNorm "aapl" ++ " to watchlist: Low=" ++ qRepr 240
              ++ ", High=" ++ qRepr 245,
             wlInsert [] (pyNorm "aapl") ⟨240, 245, "T0"⟩)
    ∧ wlLookup (wlInsert [] (pyNorm "aapl") ⟨240, 245, "T0"⟩) (pyNorm "aapl")
        = some ⟨240, 245, "T0"⟩
    ∧ pySplitLines (get_watchlist (wlInsert [] (pyNorm "aapl") ⟨240, 245, "T0"⟩))
        = "Current Watchlist:"
            :: (wlInsert [] (pyNorm "aapl") ⟨240, 245, "T0"⟩).map entryLine
    ∧ entryLine (pyNorm "aapl", ⟨240, 245, "T0"⟩)
        ∈ pySplitLines (get_watchlist (wlInsert [] (pyNorm "aapl") ⟨240, 245, "T0"⟩))
    ∧ add_to_watchlist "T1" "aapl" (.pfloat 100) (.pfloat 200)
        (wlInsert [] (pyNorm "aapl") ⟨240, 245, "T0"⟩)
      = .ok ("Added " ++ pyNorm "aapl" ++ " to watchlist: Low=" ++ qRepr 100
              ++ ", High=" ++ qRepr 200,
             wlInsert (wlInsert [] (pyNorm "aapl") ⟨240, 245, "T0"⟩) (pyNorm "aapl")
               ⟨100, 200, "T1"⟩)
    ∧ wlLookup (wlInsert (wlInsert [] (pyNorm "aapl") ⟨240, 245, "T0"⟩) (pyNorm "aapl")
          ⟨100, 200, "T1"⟩) (pyNorm "aapl") = some ⟨100, 200, "T1"⟩
    ∧ (wlInsert (wlInsert [] (pyNorm "aapl") ⟨240, 245, "T0"⟩) (pyNorm "aapl")
          ⟨100, 200, "T1"⟩).map Prod.fst
        = (wlInsert [] (pyNorm "aapl") ⟨240, 245, "T0"⟩).map Prod.fst
    ∧ (wlInsert (wlInsert [] (pyNorm "aapl") ⟨240, 245, "T0"⟩) (pyNorm "aapl")
          ⟨100, 200, "T1"⟩).length
        = (wlInsert [] (pyNorm "aapl") ⟨240, 245, "T0"⟩).length
    ∧ ((wlInsert (wlInsert [] (pyNorm "aapl") ⟨240, 245, "T0"⟩) (pyNorm "aapl")
          ⟨100, 200, "T1"⟩).filter fun p => p.1 = pyNorm "aapl").length = 1
    ∧ get_watchlist [] = "Watchlist is empty" :=
  watchlist_add_overwrite_list "T0" "T1" "aapl" 240 245 100 200 []
    (by decide) (by decide) (by decide)
